import Mathlib

/-!
Verification of the scrypto-unit test harness (src/src/lib.rs).

The harness code under `src/src/lib.rs` is embedded shallowly below:
  * `User`, `TestEnv` and every `TestEnv` method mirror the Rust items of
    the same name; Rust `HashMap` is an association list with
    overwrite-on-insert semantics, Rust `panic!` becomes `Option.none`.
  * Addresses, key handles and resource addresses are opaque `Nat` handles;
    the ledger `Decimal` type (exact fixed point) is embedded as `Int`.
  * The external collaborators (the radix engine executor, account
    blueprint and SBOR codec) are not part of the repository; they are
    modelled from the spec boundary (spec.md §4.3, §4.4, §6) and each such
    definition carries a doc comment saying so.
-/

namespace ScryptoUnit

/-- A raw SBOR-encoded byte blob (arguments, instruction outputs). -/
abbrev Blob := List Int

/-- The user account (`struct User` in src/src/lib.rs): public key handle
plus account component address. -/
structure User where
  key : Nat
  account : Nat
deriving DecidableEq, Repr

/-- Association-list lookup, first match wins; embeds `HashMap::get`. -/
def lookup {α β : Type} [DecidableEq α] (k : α) : List (α × β) → Option β
  | [] => none
  | (a, b) :: rest => if a = k then some b else lookup k rest

/-- Drop every entry with the given key. -/
def eraseKey {α β : Type} [DecidableEq α] (k : α) :
    List (α × β) → List (α × β)
  | [] => []
  | (a, b) :: rest =>
    if a = k then eraseKey k rest else (a, b) :: eraseKey k rest

/-- Association-list insert with overwrite; embeds `HashMap::insert`. -/
def insertMap {α β : Type} [DecidableEq α] (k : α) (v : β) (m : List (α × β)) :
    List (α × β) :=
  (k, v) :: eraseKey k m

/-- The transaction instructions emitted by the `TransactionBuilder` calls
that appear in src/src/lib.rs. -/
inductive Instruction where
  | callFunction (package : Nat) (blueprint_name function_name : String)
      (params : List Blob)
  | callMethod (component : Nat) (method_name : String) (params : List Blob)
  | callMethodWithAllResources (component : Nat) (method_name : String)
  | newTokenFixed (max_supply : Int)
  | withdrawFromAccountByAmount (amount : Int) (resource : Nat) (account : Nat)
deriving DecidableEq, Repr

/-- A built and signed transaction: the instruction list from the builder
chain, the nonce passed to `build`, and the signature list from `sign`
(the external signing primitive is deterministic, spec.md §6, so a
signature is embedded as the signing private key handle). -/
structure SignedTransaction where
  instructions : List Instruction
  nonce : Nat
  signatures : List Nat
deriving DecidableEq, Repr

/-- Modelled from the spec: SBOR encoding of a `Decimal` value
(`scrypto_decode` in the source inverts it); the codec is external, so it
is embedded as an injective tagged rendering. -/
def encodeDecimal (d : Int) : Blob := [0, d]

/-- Modelled from the spec: SBOR decoding of a `Decimal`, inverse of
`encodeDecimal`; `none` embeds a decode `unwrap` panic. -/
def decodeDecimal : Blob → Option Int
  | [0, d] => some d
  | _ => none

/-- Modelled from the spec: SBOR encoding of a `ResourceAddress` argument
(the `args!` macro in the source). -/
def encodeResourceAddress (r : Nat) : Blob := [1, (r : Int)]

/-- Modelled from the spec: SBOR decoding of a `ResourceAddress`. -/
def decodeResourceAddress : Blob → Option Nat
  | [1, r] => if 0 ≤ r then some r.toNat else none
  | _ => none

/-- Modelled from the spec (§4.3, §6): the external transaction executor
state — per-identity nonces, a fresh-address allocator, and the ledger
vault balances keyed by (component address, resource address). -/
structure Executor where
  nonces : List (Nat × Nat)
  freshCtr : Nat
  balances : List ((Nat × Nat) × Int)
deriving DecidableEq, Repr

/-- Balance of a (component, resource) vault; absent vaults read as zero. -/
def getBal (ex : Executor) (c r : Nat) : Int :=
  (lookup (c, r) ex.balances).getD 0

/-- Overwrite the balance of one (component, resource) vault. -/
def setBal (ex : Executor) (c r : Nat) (v : Int) : Executor :=
  { ex with balances := insertMap (c, r) v ex.balances }

/-- Modelled from the spec (§6 `nextNonce`): read the signer identity's
next nonce; the source calls `executor.get_nonce([user.key])`. -/
def Executor.get_nonce (ex : Executor) (key : Nat) : Nat :=
  (lookup key ex.nonces).getD 0

/-- Advance one identity's nonce after an execution. -/
def bumpNonce (ex : Executor) (k : Nat) : Executor :=
  { ex with nonces := insertMap k ((lookup k ex.nonces).getD 0 + 1) ex.nonces }

/-- Advance the nonce of every signer of an executed transaction. -/
def bumpNonces (ex : Executor) : List Nat → Executor
  | [] => ex
  | k :: rest => bumpNonces (bumpNonce ex k) rest

/-- Modelled from the spec (§6 `createAccount`): mint a keypair and an
account with the bootstrap XRD balance (the source doc example asserts a
fresh account holds 1000000 RADIX_TOKEN). Returns
(public key, private key, account address). -/
def Executor.new_account (ex : Executor) : (Nat × Nat × Nat) × Executor :=
  let k := ex.freshCtr
  let acct := ex.freshCtr + 1
  let ex2 := { ex with freshCtr := ex.freshCtr + 2 }
  ((k, k, acct), setBal ex2 acct 0 1000000)

/-- The RADIX_TOKEN bootstrap resource address. -/
def RADIX_TOKEN : Nat := 0

/-- Modelled from the spec (§6 `publishCode`): allocate a fresh package
address for published code. -/
def Executor.publish_package_code (ex : Executor) (_code : Blob) :
    Nat × Executor :=
  (ex.freshCtr, { ex with freshCtr := ex.freshCtr + 1 })

/-- Modelled from the spec (§4.3, §4.4, §7): execute one instruction over
the executor state and a worktop of in-transit resources. `none` is a
ledger execution failure (reported inside the Receipt, never a harness
abort): withdrawing more than the vault holds, or a non-positive amount,
fails. The account blueprint's `balance` method returns the vault amount,
zero when no matching vault exists; `deposit_batch` sweeps the whole
worktop into the account; other external contract calls are opaque
successful calls with empty output. Returns the new executor state, the
new worktop, the instruction's raw output, and newly created resource
addresses. -/
def runInstruction (ex : Executor) (wt : List (Nat × Int)) :
    Instruction → Option (Executor × List (Nat × Int) × Blob × List Nat)
  | Instruction.callFunction _ _ _ _ => some (ex, wt, [], [])
  | Instruction.callMethod c m params =>
    if m = "balance" then
      match params with
      | [arg] =>
        match decodeResourceAddress arg with
        | some r => some (ex, wt, encodeDecimal (getBal ex c r), [])
        | none => some (ex, wt, [], [])
      | _ => some (ex, wt, [], [])
    else some (ex, wt, [], [])
  | Instruction.callMethodWithAllResources c m =>
    if m = "deposit_batch" then
      some (wt.foldl (fun e p => setBal e c p.1 (getBal e c p.1 + p.2)) ex,
        [], [], [])
    else some (ex, wt, [], [])
  | Instruction.newTokenFixed supply =>
    some ({ ex with freshCtr := ex.freshCtr + 1 },
      (ex.freshCtr, supply) :: wt, [], [ex.freshCtr])
  | Instruction.withdrawFromAccountByAmount a r acct =>
    if 0 < a ∧ a ≤ getBal ex acct r then
      some (setBal ex acct r (getBal ex acct r - a), (r, a) :: wt, [], [])
    else none

/-- Run an instruction list, threading executor state and worktop and
accumulating per-instruction outputs and new resource addresses. -/
def runInstructions (ex : Executor) (wt : List (Nat × Int)) (outs : List Blob)
    (newRes : List Nat) :
    List Instruction → Option (Executor × List Blob × List Nat)
  | [] => some (ex, outs, newRes)
  | i :: rest =>
    match runInstruction ex wt i with
    | some (ex2, wt2, out, nr) =>
      runInstructions ex2 wt2 (outs ++ [out]) (newRes ++ nr) rest
    | none => none

/-- The receipt of one executed transaction (radix `Receipt`): the
validated transaction, a success flag standing for `result.is_ok()`, the
per-instruction raw outputs, and the newly created resource addresses. -/
structure Receipt where
  transaction : SignedTransaction
  success : Bool
  outputs : List Blob
  new_resource_addresses : List Nat
deriving DecidableEq, Repr

/-- Modelled from the spec (§6 `validateAndExecute`, §7): validation of a
harness-built transaction succeeds; execution failure is recorded inside
the Receipt with the ledger state rolled back; the signer nonces advance
so replays are impossible. -/
def validate_and_execute (ex : Executor) (txn : SignedTransaction) :
    Receipt × Executor :=
  match runInstructions ex [] [] [] txn.instructions with
  | some (ex2, outs, newRes) =>
    ({ transaction := txn, success := true, outputs := outs,
       new_resource_addresses := newRes }, bumpNonces ex2 txn.signatures)
  | none =>
    ({ transaction := txn, success := false, outputs := [],
       new_resource_addresses := [] }, bumpNonces ex txn.signatures)

/-- The test environment (`struct TestEnv` in src/src/lib.rs). -/
structure TestEnv where
  executor : Executor
  users : List (String × User)
  current_user : Option User
  packages : List (String × Nat)
  current_package : Option Nat
  users_pk : List (Nat × Nat)
deriving DecidableEq, Repr

/-- `TestEnv::new`: empty registries, no current user or package; the
allocator starts past the bootstrap RADIX_TOKEN address. -/
def TestEnv.new : TestEnv :=
  { executor := { nonces := [], freshCtr := 1, balances := [] },
    users := [], current_user := none, packages := [],
    current_package := none, users_pk := [] }

/-- `TestEnv::publish_package`: publish the code, register the address
under the name, and set it as the current package only if none is set. -/
def TestEnv.publish_package (env : TestEnv) (name : String) (package : Blob) :
    TestEnv :=
  let (package_addr, ex2) := env.executor.publish_package_code package
  let env2 := { env with executor := ex2,
                         packages := insertMap name package_addr env.packages }
  match env2.current_package with
  | some _ => env2
  | none => { env2 with current_package := some package_addr }

/-- `TestEnv::get_package`: `none` embeds the `panic!` on a missing name. -/
def TestEnv.get_package (env : TestEnv) (name : String) : Option Nat :=
  lookup name env.packages

/-- `TestEnv::using_package`: switch the current package; `none` embeds
the `panic!` raised through `get_package` on a missing name. -/
def TestEnv.using_package (env : TestEnv) (name : String) : Option TestEnv :=
  (env.get_package name).map
    (fun package => { env with current_package := some package })

/-- `TestEnv::create_user`: mint a keypair and account, register the user
and its private key, and set it as the current user only if none is set.
Returns the new `User` alongside the updated environment. -/
def TestEnv.create_user (env : TestEnv) (name : String) : User × TestEnv :=
  let ((key, private_key, account), ex2) := env.executor.new_account
  let usr : User := { key := key, account := account }
  let env2 := { env with executor := ex2,
                         users := insertMap name usr env.users,
                         users_pk := insertMap account private_key env.users_pk }
  match env2.current_user with
  | some _ => (usr, env2)
  | none => (usr, { env2 with current_user := some usr })

/-- `TestEnv::get_user`: `none` embeds the `panic!` on a missing name. -/
def TestEnv.get_user (env : TestEnv) (name : String) : Option User :=
  lookup name env.users

/-- `TestEnv::acting_as`: set the current user to the registered user
(rebuilt from its key and account as in the source); `none` embeds the
`panic!` raised through `get_user` on a missing name. -/
def TestEnv.acting_as (env : TestEnv) (name : String) : Option TestEnv :=
  (env.get_user name).map
    (fun user =>
      { env with current_user := some (User.mk user.key user.account) })

/-- `TestEnv::get_current_user`: the current user and its private key;
`none` embeds either `panic!` arm (no current user, or no stored key). -/
def TestEnv.get_current_user (env : TestEnv) : Option (User × Nat) :=
  match env.current_user with
  | some user =>
    match lookup user.account env.users_pk with
    | some private_key => some (user, private_key)
    | none => none
  | none => none

/-- `TestEnv::get_current_package`: `none` embeds the `panic!` when no
package is set. -/
def TestEnv.get_current_package (env : TestEnv) : Option Nat :=
  env.current_package

/-!
Each `TestEnv` facade method builds its transaction through a
`TransactionBuilder` chain ending in `.build(nonce).sign([private_key])`.
The chains are rendered as literal instruction lists in a per-operation
`…_transaction` definition, which the operation then executes.
-/

/-- The transaction built by `TestEnv::create_token`. -/
def TestEnv.create_token_transaction (env : TestEnv) (user : User)
    (private_key : Nat) (max_supply : Int) : SignedTransaction :=
  { instructions :=
      [Instruction.newTokenFixed max_supply,
       Instruction.callMethodWithAllResources user.account "deposit_batch"],
    nonce := env.executor.get_nonce user.key,
    signatures := [private_key] }

/-- `TestEnv::create_token`: build, sign and execute a fixed-supply token
creation, returning `receipt.new_resource_addresses[0]` (`none` embeds the
panic of indexing an empty vector or of an unset current user). -/
def TestEnv.create_token (env : TestEnv) (max_supply : Int) :
    Option (Nat × TestEnv) := do
  let (user, private_key) ← env.get_current_user
  let transaction := env.create_token_transaction user private_key max_supply
  let (receipt, ex2) := validate_and_execute env.executor transaction
  let addr ← receipt.new_resource_addresses.get? 0
  some (addr, { env with executor := ex2 })

/-- The transaction built by `TestEnv::call_function`. -/
def TestEnv.call_function_transaction (env : TestEnv) (user : User)
    (private_key : Nat) (package : Nat) (blueprint_name function_name : String)
    (params : List Blob) : SignedTransaction :=
  { instructions :=
      [Instruction.callFunction package blueprint_name function_name params,
       Instruction.callMethodWithAllResources user.account "deposit_batch"],
    nonce := env.executor.get_nonce user.key,
    signatures := [private_key] }

/-- `TestEnv::call_function`: call a function of the current package as
the current user (`none` embeds the panic when either is unset). -/
def TestEnv.call_function (env : TestEnv) (blueprint_name function_name : String)
    (params : List Blob) : Option (Receipt × TestEnv) := do
  let (user, private_key) ← env.get_current_user
  let package ← env.get_current_package
  let transaction := env.call_function_transaction user private_key package
    blueprint_name function_name params
  let (receipt, ex2) := validate_and_execute env.executor transaction
  some (receipt, { env with executor := ex2 })

/-- The transaction built by `TestEnv::call_method`. -/
def TestEnv.call_method_transaction (env : TestEnv) (user : User)
    (private_key : Nat) (component : Nat) (method_name : String)
    (params : List Blob) : SignedTransaction :=
  { instructions :=
      [Instruction.callMethod component method_name params,
       Instruction.callMethodWithAllResources user.account "deposit_batch"],
    nonce := env.executor.get_nonce user.key,
    signatures := [private_key] }

/-- `TestEnv::call_method`: call a component method as the current user. -/
def TestEnv.call_method (env : TestEnv) (component : Nat) (method_name : String)
    (params : List Blob) : Option (Receipt × TestEnv) := do
  let (user, private_key) ← env.get_current_user
  let transaction := env.call_method_transaction user private_key component
    method_name params
  let (receipt, ex2) := validate_and_execute env.executor transaction
  some (receipt, { env with executor := ex2 })

/-- The transaction built by `TestEnv::call_method_auth`: a `create_proof`
call on the acting user's account for the badge, then the method call,
then the sweep deposit. -/
def TestEnv.call_method_auth_transaction (env : TestEnv) (user : User)
    (private_key : Nat) (component : Nat) (method_name : String)
    (admin_badge : Nat) (params : List Blob) : SignedTransaction :=
  { instructions :=
      [Instruction.callMethod user.account "create_proof"
         [encodeResourceAddress admin_badge],
       Instruction.callMethod component method_name params,
       Instruction.callMethodWithAllResources user.account "deposit_batch"],
    nonce := env.executor.get_nonce user.key,
    signatures := [private_key] }

/-- `TestEnv::call_method_auth`: call a component method as the current
user after proving possession of the badge resource. -/
def TestEnv.call_method_auth (env : TestEnv) (component : Nat)
    (method_name : String) (admin_badge : Nat) (params : List Blob) :
    Option (Receipt × TestEnv) := do
  let (user, private_key) ← env.get_current_user
  let transaction := env.call_method_auth_transaction user private_key
    component method_name admin_badge params
  let (receipt, ex2) := validate_and_execute env.executor transaction
  some (receipt, { env with executor := ex2 })

/-- The transaction built by `TestEnv::get_amount_for_rd`: a single
`balance` method call, with no trailing sweep deposit. -/
def TestEnv.get_amount_transaction (env : TestEnv) (user : User)
    (private_key : Nat) (component_address resource_address : Nat) :
    SignedTransaction :=
  { instructions :=
      [Instruction.callMethod component_address "balance"
         [encodeResourceAddress resource_address]],
    nonce := env.executor.get_nonce user.key,
    signatures := [private_key] }

/-- `TestEnv::get_amount_for_rd`: execute a `balance` call transaction and
decode the first instruction output as a `Decimal` (`none` embeds the
decode `unwrap` panic or an unset current user). -/
def TestEnv.get_amount_for_rd (env : TestEnv)
    (component_address resource_address : Nat) : Option (Int × TestEnv) := do
  let (user, private_key) ← env.get_current_user
  let transaction_b := env.get_amount_transaction user private_key
    component_address resource_address
  let (receipt_b, ex2) := validate_and_execute env.executor transaction_b
  let out ← receipt_b.outputs.get? 0
  let balance ← decodeDecimal out
  some (balance, { env with executor := ex2 })

/-- The transaction built by `TestEnv::transfer_resource`: withdraw from
the acting user's account, then sweep-deposit into `to_user`'s account. -/
def TestEnv.transfer_resource_transaction (env : TestEnv) (user : User)
    (private_key : Nat) (amount : Int) (resource_to_send : Nat)
    (to_user : User) : SignedTransaction :=
  { instructions :=
      [Instruction.withdrawFromAccountByAmount amount resource_to_send
         user.account,
       Instruction.callMethodWithAllResources to_user.account "deposit_batch"],
    nonce := env.executor.get_nonce user.key,
    signatures := [private_key] }

/-- `TestEnv::transfer_resource`: move `amount` of a resource from the
current user's account to `to_user`'s account. -/
def TestEnv.transfer_resource (env : TestEnv) (amount : Int)
    (resource_to_send : Nat) (to_user : User) : Option (Receipt × TestEnv) := do
  let (user, private_key) ← env.get_current_user
  let transaction := env.transfer_resource_transaction user private_key amount
    resource_to_send to_user
  let (receipt, ex2) := validate_and_execute env.executor transaction
  some (receipt, { env with executor := ex2 })

/-!
Sequence runners used to state the registry claims, plus concrete
environments used as witnesses.
-/

/-- Run a sequence of `publish_package` calls. -/
def runPublishes (env : TestEnv) : List (String × Blob) → TestEnv
  | [] => env
  | (n, c) :: rest => runPublishes (env.publish_package n c) rest

/-- An Identity Registry operation. -/
inductive RegOp where
  | createUser (name : String)
  | actAs (name : String)
deriving DecidableEq, Repr

/-- Run a sequence of Identity Registry operations, also accumulating the
trace of every `User` value returned by a `create_user` call; `none`
embeds an `acting_as` panic on a missing name. -/
def runRegOpsTrace (env : TestEnv) (created : List User) :
    List RegOp → Option (TestEnv × List User)
  | [] => some (env, created)
  | RegOp.createUser n :: rest =>
    let (u, env2) := env.create_user n
    runRegOpsTrace env2 (created ++ [u]) rest
  | RegOp.actAs n :: rest =>
    match env.acting_as n with
    | some env2 => runRegOpsTrace env2 created rest
    | none => none

/-- The Identity Registry invariant of the spec: the current user, and
every user reachable from the `users` map, is (by account and key) a value
some earlier `create_user` call returned. -/
def createdInv (env : TestEnv) (created : List User) : Prop :=
  (∀ u, env.current_user = some u → u ∈ created) ∧
  (∀ n u, lookup n env.users = some u → u ∈ created)

/-- Run a sequence of `create_user` calls, returning the final
environment and the log of (name, returned `User`) pairs. -/
def runCreates (env : TestEnv) : List String → TestEnv × List (String × User)
  | [] => (env, [])
  | n :: rest =>
    let (u, env2) := env.create_user n
    let (env3, log) := runCreates env2 rest
    (env3, (n, u) :: log)

/-- A fresh environment with one user (key 1, account 2). -/
def env1u : TestEnv := (TestEnv.new.create_user "user1").2

/-- `env1u` after creating a second user; the current user is still the
first (key 1, account 2). -/
def env2u : TestEnv := ((env1u.create_user "user2").2)

/-- The second user of `env2u` (key 3, account 4). -/
def user2u : User := (env1u.create_user "user2").1

/-- A fresh environment with one published package (address 1). -/
def envP : TestEnv := TestEnv.new.publish_package "pkgA" []

/-- `env1u` with one published package (address 3); both a current user
and a current package are set. -/
def envUP : TestEnv := env1u.publish_package "pkgA" []

/-- The registry operation sequence used as the C8 witness. -/
def opsReg : List RegOp :=
  [RegOp.createUser "admin", RegOp.createUser "user", RegOp.actAs "admin"]

/-- The run of `opsReg` from a fresh environment. -/
def regRun : Option (TestEnv × List User) :=
  runRegOpsTrace TestEnv.new [] opsReg

/-! ### Map helper lemmas -/

theorem lookup_eraseKey_ne {α β : Type} [DecidableEq α] (k m : α)
    (l : List (α × β)) (h : k ≠ m) :
    lookup m (eraseKey k l) = lookup m l := by
  induction l with
  | nil => rfl
  | cons p rest ih =>
    obtain ⟨a, b⟩ := p
    by_cases hak : a = k
    · have ham : a ≠ m := by rw [hak]; exact h
      simp [eraseKey, lookup, hak, ham, h, ih]
    · by_cases ham : a = m
      · simp [eraseKey, lookup, hak, ham, Ne.symm h]
      · simp [eraseKey, lookup, hak, ham, ih]

theorem lookup_insertMap_self {α β : Type} [DecidableEq α] (k : α) (v : β)
    (l : List (α × β)) : lookup k (insertMap k v l) = some v := by
  simp [insertMap, lookup]

theorem lookup_insertMap_ne {α β : Type} [DecidableEq α] (k m : α) (v : β)
    (l : List (α × β)) (h : k ≠ m) :
    lookup m (insertMap k v l) = lookup m l := by
  simp only [insertMap, lookup, if_neg h]
  exact lookup_eraseKey_ne k m l h

theorem eraseKey_of_lookup_none {α β : Type} [DecidableEq α] (k : α)
    (l : List (α × β)) (h : lookup k l = none) :
    eraseKey k l = l := by
  induction l with
  | nil => rfl
  | cons p rest ih =>
    obtain ⟨a, b⟩ := p
    by_cases hak : a = k
    · rw [hak] at h
      simp [lookup] at h
    · rw [lookup, if_neg hak] at h
      simp [eraseKey, hak, ih h]

theorem insertMap_of_lookup_none {α β : Type} [DecidableEq α] (k : α) (v : β)
    (l : List (α × β)) (h : lookup k l = none) :
    insertMap k v l = (k, v) :: l := by
  unfold insertMap
  rw [eraseKey_of_lookup_none k l h]

/-! ### Harness operation helper lemmas -/

theorem validate_and_execute_transaction (ex : Executor)
    (txn : SignedTransaction) :
    (validate_and_execute ex txn).1.transaction = txn := by
  unfold validate_and_execute
  cases h : runInstructions ex [] [] [] txn.instructions with
  | none => simp
  | some v =>
    obtain ⟨ex2, outs, newRes⟩ := v
    simp

theorem create_user_fst (env : TestEnv) (name : String) :
    (env.create_user name).1 =
      User.mk env.executor.freshCtr (env.executor.freshCtr + 1) := by
  unfold TestEnv.create_user
  cases h : env.current_user <;> simp [Executor.new_account, h]

theorem create_user_users (env : TestEnv) (name : String) :
    ((env.create_user name).2).users =
      insertMap name (env.create_user name).1 env.users := by
  unfold TestEnv.create_user
  cases h : env.current_user <;> simp [Executor.new_account, h]

theorem create_user_current_some (env : TestEnv) (name : String) (u : User)
    (h : env.current_user = some u) :
    ((env.create_user name).2).current_user = some u := by
  unfold TestEnv.create_user
  simp [Executor.new_account, h]

theorem create_user_current_none (env : TestEnv) (name : String)
    (h : env.current_user = none) :
    ((env.create_user name).2).current_user = some (env.create_user name).1 := by
  unfold TestEnv.create_user
  simp [Executor.new_account, h]

theorem acting_as_some (env env2 : TestEnv) (name : String)
    (h : env.acting_as name = some env2) :
    ∃ u, lookup name env.users = some u ∧ env2.current_user = some u ∧
      env2.users = env.users := by
  unfold TestEnv.acting_as TestEnv.get_user at h
  cases hu : lookup name env.users with
  | none =>
    rw [hu] at h
    exact absurd h (by simp)
  | some u =>
    rw [hu] at h
    have h2 : { env with current_user := some (User.mk u.key u.account) } =
        env2 := by simpa using h
    refine ⟨u, rfl, ?_, ?_⟩
    · rw [← h2]
    · rw [← h2]

theorem call_function_eq (env : TestEnv) (user : User)
    (private_key package : Nat) (blueprint_name function_name : String)
    (params : List Blob)
    (h : env.get_current_user = some (user, private_key))
    (hp : env.get_current_package = some package) :
    env.call_function blueprint_name function_name params =
      some ((validate_and_execute env.executor
          (env.call_function_transaction user private_key package
            blueprint_name function_name params)).1,
        { env with executor := (validate_and_execute env.executor
          (env.call_function_transaction user private_key package
            blueprint_name function_name params)).2 }) := by
  unfold TestEnv.call_function
  rw [h, hp]
  rfl

theorem call_method_eq (env : TestEnv) (user : User)
    (private_key component : Nat) (method_name : String) (params : List Blob)
    (h : env.get_current_user = some (user, private_key)) :
    env.call_method component method_name params =
      some ((validate_and_execute env.executor
          (env.call_method_transaction user private_key component
            method_name params)).1,
        { env with executor := (validate_and_execute env.executor
          (env.call_method_transaction user private_key component
            method_name params)).2 }) := by
  unfold TestEnv.call_method
  rw [h]
  rfl

theorem call_method_auth_eq (env : TestEnv) (user : User)
    (private_key component admin_badge : Nat) (method_name : String)
    (params : List Blob)
    (h : env.get_current_user = some (user, private_key)) :
    env.call_method_auth component method_name admin_badge params =
      some ((validate_and_execute env.executor
          (env.call_method_auth_transaction user private_key component
            method_name admin_badge params)).1,
        { env with executor := (validate_and_execute env.executor
          (env.call_method_auth_transaction user private_key component
            method_name admin_badge params)).2 }) := by
  unfold TestEnv.call_method_auth
  rw [h]
  rfl

theorem transfer_resource_eq (env : TestEnv) (user : User)
    (private_key resource_to_send : Nat) (amount : Int) (to_user : User)
    (h : env.get_current_user = some (user, private_key)) :
    env.transfer_resource amount resource_to_send to_user =
      some ((validate_and_execute env.executor
          (env.transfer_resource_transaction user private_key amount
            resource_to_send to_user)).1,
        { env with executor := (validate_and_execute env.executor
          (env.transfer_resource_transaction user private_key amount
            resource_to_send to_user)).2 }) := by
  unfold TestEnv.transfer_resource
  rw [h]
  rfl

theorem decode_encode_resource (r : Nat) :
    decodeResourceAddress (encodeResourceAddress r) = some r := by
  simp [encodeResourceAddress, decodeResourceAddress]

theorem get_amount_for_rd_eq (env : TestEnv) (user : User) (private_key : Nat)
    (component_address resource_address : Nat)
    (h : env.get_current_user = some (user, private_key)) :
    env.get_amount_for_rd component_address resource_address =
      some (getBal env.executor component_address resource_address,
        { env with executor := bumpNonce env.executor private_key }) := by
  unfold TestEnv.get_amount_for_rd
  rw [h]
  simp [TestEnv.get_amount_transaction, validate_and_execute, runInstructions,
    runInstruction, decode_encode_resource, encodeDecimal, decodeDecimal,
    bumpNonces]

/-! ### Claim theorems -/

/-- C2: `get_user` and `get_package` on unregistered names, and
`get_current_user` / `get_current_package` with no current selection, all
abort (the panic embedding `none`) and never return a default value. -/
theorem missing_selection_aborts (env1 env2 env3 env4 : TestEnv)
    (uname pname : String)
    (hu : lookup uname env1.users = none)
    (hp : lookup pname env2.packages = none)
    (hcu : env3.current_user = none)
    (hcp : env4.current_package = none) :
    env1.get_user uname = none ∧ env2.get_package pname = none ∧
    env3.get_current_user = none ∧ env4.get_current_package = none := by
  refine ⟨hu, hp, ?_, hcp⟩
  unfold TestEnv.get_current_user
  rw [hcu]

/-- Witness for `missing_selection_aborts` at a fresh environment. -/
theorem missing_selection_aborts_witness :
    TestEnv.new.get_user "ghost" = none ∧
    TestEnv.new.get_package "ghost" = none ∧
    TestEnv.new.get_current_user = none ∧
    TestEnv.new.get_current_package = none :=
  missing_selection_aborts TestEnv.new TestEnv.new TestEnv.new TestEnv.new
    "ghost" "ghost" rfl rfl rfl rfl

/-- C10: `create_user` applies a first-write-wins current-user policy: it
leaves an already-set current user unchanged, and only an unset current
user becomes the newly created user. -/
theorem create_user_first_write_wins (env : TestEnv) (name : String)
    (u : User) :
    (env.current_user = some u →
      ((env.create_user name).2).current_user = some u) ∧
    (env.current_user = none →
      ((env.create_user name).2).current_user =
        some (env.create_user name).1) :=
  ⟨create_user_current_some env name u, create_user_current_none env name⟩

/-- Witness for `create_user_first_write_wins`: a second `create_user`
leaves the first user current, and the first `create_user` becomes
current. -/
theorem create_user_first_write_wins_witness :
    ((env1u.create_user "user3").2).current_user = some (User.mk 1 2) ∧
    ((TestEnv.new.create_user "solo").2).current_user =
      some (TestEnv.new.create_user "solo").1 :=
  ⟨(create_user_first_write_wins env1u "user3" (User.mk 1 2)).1 (by decide),
   (create_user_first_write_wins TestEnv.new "solo" (User.mk 0 0)).2 rfl⟩

/-- C6: every transaction built by `call_method_auth` starts with a
`create_proof` call for the badge resource on the acting user's account,
placed before the instruction calling the requested method. -/
theorem call_method_auth_badge_proof_first (env : TestEnv) (user : User)
    (private_key component admin_badge : Nat) (method_name : String)
    (params : List Blob)
    (h : env.get_current_user = some (user, private_key)) :
    ∃ receipt env2,
      env.call_method_auth component method_name admin_badge params =
        some (receipt, env2) ∧
      receipt.transaction.instructions =
        [Instruction.callMethod user.account "create_proof"
           [encodeResourceAddress admin_badge],
         Instruction.callMethod component method_name params,
         Instruction.callMethodWithAllResources user.account
           "deposit_batch"] := by
  refine ⟨_, _, call_method_auth_eq env user private_key component admin_badge
    method_name params h, ?_⟩
  rw [validate_and_execute_transaction]
  rfl

/-- Witness for `call_method_auth_badge_proof_first` on `env1u`. -/
theorem call_method_auth_badge_proof_first_witness :
    ∃ receipt env2,
      env1u.call_method_auth 9 "set_price" 7 [] = some (receipt, env2) ∧
      receipt.transaction.instructions =
        [Instruction.callMethod 2 "create_proof" [encodeResourceAddress 7],
         Instruction.callMethod 9 "set_price" [],
         Instruction.callMethodWithAllResources 2 "deposit_batch"] :=
  call_method_auth_badge_proof_first env1u (User.mk 1 2) 1 9 7 "set_price"
    [] rfl

/-- C1 counterexample: in `env2u` the current user's account is 2, yet the
transaction `transfer_resource` builds ends with a deposit_batch targeting
the recipient account 4, so the trailing deposit does not target the
acting user's account. -/
theorem transfer_deposit_targets_recipient_cex :
    env2u.get_current_user = some (User.mk 1 2, 1) ∧
    (env2u.transfer_resource 10 RADIX_TOKEN user2u).map
        (fun p => p.1.transaction.instructions.getLast?) =
      some (some (Instruction.callMethodWithAllResources 4 "deposit_batch")) ∧
    Instruction.callMethodWithAllResources 4 "deposit_batch" ≠
      Instruction.callMethodWithAllResources 2 "deposit_batch" := by
  decide

/-- C1 (amended): with a current user set, every facade transaction ends
with a sweeping deposit_batch instruction; for `call_function`,
`call_method`, `call_method_auth` and `create_token` its target is the
acting user's account, while for `transfer_resource` it is the
recipient's account. -/
theorem facade_trailing_deposit (env : TestEnv) (user to_user : User)
    (private_key package component admin_badge resource_to_send : Nat)
    (blueprint_name function_name method_name : String) (params : List Blob)
    (max_supply amount : Int)
    (h : env.get_current_user = some (user, private_key))
    (hp : env.get_current_package = some package) :
    (∃ receipt env2,
      env.call_function blueprint_name function_name params =
        some (receipt, env2) ∧
      receipt.transaction.instructions.getLast? =
        some (Instruction.callMethodWithAllResources user.account
          "deposit_batch")) ∧
    (∃ receipt env2,
      env.call_method component method_name params = some (receipt, env2) ∧
      receipt.transaction.instructions.getLast? =
        some (Instruction.callMethodWithAllResources user.account
          "deposit_batch")) ∧
    (∃ receipt env2,
      env.call_method_auth component method_name admin_badge params =
        some (receipt, env2) ∧
      receipt.transaction.instructions.getLast? =
        some (Instruction.callMethodWithAllResources user.account
          "deposit_batch")) ∧
    ((env.create_token_transaction user private_key
        max_supply).instructions.getLast? =
      some (Instruction.callMethodWithAllResources user.account
        "deposit_batch")) ∧
    (∃ receipt env2,
      env.transfer_resource amount resource_to_send to_user =
        some (receipt, env2) ∧
      receipt.transaction.instructions.getLast? =
        some (Instruction.callMethodWithAllResources to_user.account
          "deposit_batch")) := by
  refine ⟨⟨_, _, call_function_eq env user private_key package blueprint_name
      function_name params h hp, ?_⟩,
    ⟨_, _, call_method_eq env user private_key component method_name params h,
      ?_⟩,
    ⟨_, _, call_method_auth_eq env user private_key component admin_badge
      method_name params h, ?_⟩,
    rfl,
    ⟨_, _, transfer_resource_eq env user private_key resource_to_send amount
      to_user h, ?_⟩⟩ <;>
  · rw [validate_and_execute_transaction]
    rfl

/-- Witness for `facade_trailing_deposit` on `envUP`. -/
theorem facade_trailing_deposit_witness :
    (∃ receipt env2,
      envUP.call_function "Hello" "new" [] = some (receipt, env2) ∧
      receipt.transaction.instructions.getLast? =
        some (Instruction.callMethodWithAllResources 2 "deposit_batch")) ∧
    (∃ receipt env2,
      envUP.call_method 9 "update_state" [] = some (receipt, env2) ∧
      receipt.transaction.instructions.getLast? =
        some (Instruction.callMethodWithAllResources 2 "deposit_batch")) ∧
    (∃ receipt env2,
      envUP.call_method_auth 9 "update_state" 7 [] = some (receipt, env2) ∧
      receipt.transaction.instructions.getLast? =
        some (Instruction.callMethodWithAllResources 2 "deposit_batch")) ∧
    ((envUP.create_token_transaction (User.mk 1 2) 1
        100).instructions.getLast? =
      some (Instruction.callMethodWithAllResources 2 "deposit_batch")) ∧
    (∃ receipt env2,
      envUP.transfer_resource 10 RADIX_TOKEN user2u = some (receipt, env2) ∧
      receipt.transaction.instructions.getLast? =
        some (Instruction.callMethodWithAllResources 4 "deposit_batch")) :=
  facade_trailing_deposit envUP (User.mk 1 2) user2u 1 3 9 7 RADIX_TOKEN
    "Hello" "new" "update_state" [] 100 10 rfl rfl

/-- C3: transferring strictly more than the acting user's balance of the
resource returns normally with a Receipt reporting execution failure; no
panic escapes `transfer_resource`. -/
theorem transfer_insufficient_balance_fails (env : TestEnv)
    (user to_user : User) (private_key resource_to_send : Nat) (amount : Int)
    (h : env.get_current_user = some (user, private_key))
    (hbal : getBal env.executor user.account resource_to_send < amount) :
    ∃ receipt env2,
      env.transfer_resource amount resource_to_send to_user =
        some (receipt, env2) ∧
      receipt.success = false := by
  refine ⟨_, _, transfer_resource_eq env user private_key resource_to_send
    amount to_user h, ?_⟩
  have hcond :
      ¬ (0 < amount ∧
        amount ≤ getBal env.executor user.account resource_to_send) := by
    rintro ⟨-, hle⟩
    exact absurd hbal (not_lt.mpr hle)
  simp [validate_and_execute, runInstructions, runInstruction,
    TestEnv.transfer_resource_transaction, hcond]

/-- Witness for `transfer_insufficient_balance_fails`: transferring
2000000 XRD from an account holding 1000000. -/
theorem transfer_insufficient_balance_fails_witness :
    ∃ receipt env2,
      env1u.transfer_resource 2000000 RADIX_TOKEN user2u =
        some (receipt, env2) ∧
      receipt.success = false :=
  transfer_insufficient_balance_fails env1u (User.mk 1 2) user2u 1
    RADIX_TOKEN 2000000 rfl (by decide)

/-- C4 counterexample: the balance query executes a transaction, so it
changes the harness executor state — on `env1u` the signer's nonce map
goes from empty to one entry. -/
theorem get_amount_mutates_executor_cex :
    (env1u.get_amount_for_rd 2 RADIX_TOKEN).map (fun p => p.2.executor) ≠
      some env1u.executor := by
  decide

/-- C4 (amended): with a current user set, `get_amount_for_rd` returns the
queried vault balance and leaves the registries, current selections,
ledger balances and address allocator unchanged; its only state effect is
advancing the signing identity's nonce by one. -/
theorem get_amount_frame (env : TestEnv) (user : User) (private_key : Nat)
    (component_address resource_address : Nat)
    (h : env.get_current_user = some (user, private_key)) :
    ∃ bal env2,
      env.get_amount_for_rd component_address resource_address =
        some (bal, env2) ∧
      bal = getBal env.executor component_address resource_address ∧
      env2.users = env.users ∧
      env2.current_user = env.current_user ∧
      env2.packages = env.packages ∧
      env2.current_package = env.current_package ∧
      env2.users_pk = env.users_pk ∧
      env2.executor.balances = env.executor.balances ∧
      env2.executor.freshCtr = env.executor.freshCtr ∧
      env2.executor.nonces = insertMap private_key
        ((lookup private_key env.executor.nonces).getD 0 + 1)
        env.executor.nonces :=
  ⟨_, _, get_amount_for_rd_eq env user private_key component_address
    resource_address h, rfl, rfl, rfl, rfl, rfl, rfl, rfl, rfl, rfl⟩

/-- Witness for `get_amount_frame` on `env1u`. -/
theorem get_amount_frame_witness :
    ∃ bal env2,
      env1u.get_amount_for_rd 2 RADIX_TOKEN = some (bal, env2) ∧
      bal = getBal env1u.executor 2 RADIX_TOKEN ∧
      env2.users = env1u.users ∧
      env2.current_user = env1u.current_user ∧
      env2.packages = env1u.packages ∧
      env2.current_package = env1u.current_package ∧
      env2.users_pk = env1u.users_pk ∧
      env2.executor.balances = env1u.executor.balances ∧
      env2.executor.freshCtr = env1u.executor.freshCtr ∧
      env2.executor.nonces = insertMap 1
        ((lookup 1 env1u.executor.nonces).getD 0 + 1)
        env1u.executor.nonces :=
  get_amount_frame env1u (User.mk 1 2) 1 2 RADIX_TOKEN rfl

/-- C5: when the queried component holds no vault for the resource, the
balance query returns the Decimal zero and does not abort. -/
theorem get_amount_no_vault_zero (env : TestEnv) (user : User)
    (private_key component_address resource_address : Nat)
    (h : env.get_current_user = some (user, private_key))
    (hvault : lookup (component_address, resource_address)
      env.executor.balances = none) :
    ∃ env2, env.get_amount_for_rd component_address resource_address =
      some (0, env2) := by
  refine ⟨{ env with executor := bumpNonce env.executor private_key }, ?_⟩
  rw [get_amount_for_rd_eq env user private_key component_address
    resource_address h]
  simp [getBal, hvault]

/-- Witness for `get_amount_no_vault_zero`: account 2 holds no vault for
resource 7. -/
theorem get_amount_no_vault_zero_witness :
    ∃ env2, env1u.get_amount_for_rd 2 7 = some (0, env2) :=
  get_amount_no_vault_zero env1u (User.mk 1 2) 1 2 7 rfl rfl

/-! ### Package Registry lemmas (towards C7) -/

theorem publish_package_current_some (env : TestEnv) (name : String)
    (code : Blob) (p : Nat) (h : env.current_package = some p) :
    (env.publish_package name code).current_package = some p := by
  unfold TestEnv.publish_package
  simp [Executor.publish_package_code, h]

theorem publish_package_current_none (env : TestEnv) (name : String)
    (code : Blob) (h : env.current_package = none) :
    (env.publish_package name code).current_package =
      some env.executor.freshCtr := by
  unfold TestEnv.publish_package
  simp [Executor.publish_package_code, h]

theorem runPublishes_current_some (ops : List (String × Blob))
    (env : TestEnv) (p : Nat) (h : env.current_package = some p) :
    (runPublishes env ops).current_package = some p := by
  induction ops generalizing env with
  | nil => exact h
  | cons op rest ih =>
    obtain ⟨n, c⟩ := op
    exact ih (env.publish_package n c) (publish_package_current_some env n c p h)

theorem using_package_sets (env env2 : TestEnv) (name : String)
    (h : env.using_package name = some env2) :
    ∃ a, lookup name env.packages = some a ∧ env2.current_package = some a := by
  unfold TestEnv.using_package TestEnv.get_package at h
  cases ha : lookup name env.packages with
  | none =>
    rw [ha] at h
    exact absurd h (by simp)
  | some a =>
    rw [ha] at h
    have h2 : { env with current_package := some a } = env2 := by simpa using h
    exact ⟨a, rfl, by rw [← h2]⟩

/-- C7: `publish_package` never changes an already-set current package; a
publish from the unset state sets the freshly allocated address;
`using_package` overrides the current package with the address registered
for the name; and after any publish sequence starting from the unset
state the current package is the first published address. -/
theorem package_default_policy :
    (∀ env name code p, env.current_package = some p →
      (TestEnv.publish_package env name code).current_package = some p) ∧
    (∀ env name code, env.current_package = none →
      (TestEnv.publish_package env name code).current_package =
        some env.executor.freshCtr) ∧
    (∀ env env2 name, TestEnv.using_package env name = some env2 →
      ∃ a, lookup name env.packages = some a ∧
        env2.current_package = some a) ∧
    (∀ env name code ops, env.current_package = none →
      (runPublishes env ((name, code) :: ops)).current_package =
        some env.executor.freshCtr) := by
  refine ⟨publish_package_current_some, publish_package_current_none,
    using_package_sets, ?_⟩
  intro env name code ops h
  exact runPublishes_current_some ops (env.publish_package name code)
    env.executor.freshCtr (publish_package_current_none env name code h)

/-- Witness for `package_default_policy`: each conjunct at a concrete
registry state. -/
theorem package_default_policy_witness :
    ((envP.publish_package "pkgB" []).current_package = some 1) ∧
    ((TestEnv.new.publish_package "pkgA" []).current_package =
      some TestEnv.new.executor.freshCtr) ∧
    (∃ a, lookup "pkgA" envP.packages = some a ∧
      envP.current_package = some a) ∧
    ((runPublishes TestEnv.new [("pkgA", []), ("pkgB", [])]).current_package =
      some TestEnv.new.executor.freshCtr) :=
  ⟨package_default_policy.1 envP "pkgB" [] 1 (by decide),
   package_default_policy.2.1 TestEnv.new "pkgA" [] rfl,
   package_default_policy.2.2.1 envP envP "pkgA" (by decide),
   package_default_policy.2.2.2 TestEnv.new "pkgA" [] [("pkgB", [])] rfl⟩

/-! ### Identity Registry invariant lemmas (towards C8) -/

theorem createdInv_create_user (env : TestEnv) (created : List User)
    (n : String) (hinv : createdInv env created) :
    createdInv (env.create_user n).2 (created ++ [(env.create_user n).1]) := by
  constructor
  · intro u hu
    cases hcur : env.current_user with
    | some v =>
      rw [create_user_current_some env n v hcur] at hu
      have huv := Option.some.inj hu
      rw [← huv]
      exact List.mem_append_left _ (hinv.1 v hcur)
    | none =>
      rw [create_user_current_none env n hcur] at hu
      have huv := Option.some.inj hu
      rw [← huv]
      exact List.mem_append_right _ (by simp)
  · intro m u hu
    rw [create_user_users] at hu
    by_cases hmn : n = m
    · subst hmn
      rw [lookup_insertMap_self] at hu
      have huv := Option.some.inj hu
      rw [← huv]
      exact List.mem_append_right _ (by simp)
    · rw [lookup_insertMap_ne n m _ _ hmn] at hu
      exact List.mem_append_left _ (hinv.2 m u hu)

theorem createdInv_acting_as (env env2 : TestEnv) (created : List User)
    (n : String) (hinv : createdInv env created)
    (h : env.acting_as n = some env2) :
    createdInv env2 created := by
  obtain ⟨u, hl, hcur, husers⟩ := acting_as_some env env2 n h
  constructor
  · intro v hv
    rw [hcur] at hv
    have huv := Option.some.inj hv
    rw [← huv]
    exact hinv.2 n u hl
  · intro m v hv
    rw [husers] at hv
    exact hinv.2 m v hv

/-- C8: the Identity Registry invariant is preserved by every operation
sequence — whenever the current user is set, it is (by account and key) a
user some earlier `create_user` call returned; the current user is never
a value that was not created through the registry. -/
theorem reg_ops_created_invariant (ops : List RegOp) (env env2 : TestEnv)
    (created created2 : List User) (hinv : createdInv env created)
    (hrun : runRegOpsTrace env created ops = some (env2, created2)) :
    createdInv env2 created2 := by
  induction ops generalizing env created with
  | nil =>
    simp only [runRegOpsTrace, Option.some.injEq, Prod.mk.injEq] at hrun
    obtain ⟨h1, h2⟩ := hrun
    rw [← h1, ← h2]
    exact hinv
  | cons op rest ih =>
    cases op with
    | createUser n =>
      simp only [runRegOpsTrace] at hrun
      exact ih ((env.create_user n).2) (created ++ [(env.create_user n).1])
        (createdInv_create_user env created n hinv) hrun
    | actAs n =>
      simp only [runRegOpsTrace] at hrun
      cases ha : env.acting_as n with
      | none => rw [ha] at hrun; exact absurd hrun (by simp)
      | some env3 =>
        rw [ha] at hrun
        exact ih env3 created (createdInv_acting_as env env3 created n hinv ha)
          hrun

/-- Witness for `reg_ops_created_invariant`: the concrete run `regRun`. -/
theorem reg_ops_created_invariant_witness :
    ∃ p, regRun = some p ∧ createdInv p.1 p.2 := by
  have hbase : createdInv TestEnv.new [] := by
    constructor
    · intro u hu
      exact absurd hu (by simp [TestEnv.new])
    · intro n u hu
      exact absurd hu (by simp [TestEnv.new, lookup])
  cases hr : regRun with
  | none => exact absurd hr (by decide)
  | some p =>
    exact ⟨p, rfl, reg_ops_created_invariant opsReg TestEnv.new p.1 [] p.2
      hbase hr⟩

/-! ### Distinct-name creation lemmas (towards C9) -/

theorem runCreates_cons_fst (env : TestEnv) (n : String)
    (rest : List String) :
    (runCreates env (n :: rest)).1 =
      (runCreates (env.create_user n).2 rest).1 := rfl

theorem runCreates_cons_snd (env : TestEnv) (n : String)
    (rest : List String) :
    (runCreates env (n :: rest)).2 =
      (n, (env.create_user n).1) ::
        (runCreates (env.create_user n).2 rest).2 := rfl

theorem runCreates_lookup_preserved (names : List String) (env : TestEnv)
    (x : String) (hx : x ∉ names) :
    lookup x ((runCreates env names).1.users) = lookup x env.users := by
  induction names generalizing env with
  | nil => rfl
  | cons n rest ih =>
    have hxrest : x ∉ rest := fun hm => hx (List.mem_cons_of_mem n hm)
    have hnx : n ≠ x := by
      rintro rfl
      exact hx (List.mem_cons_self n rest)
    rw [runCreates_cons_fst, ih ((env.create_user n).2) hxrest,
      create_user_users, lookup_insertMap_ne n x _ _ hnx]

/-- C9: creating users under pairwise-distinct fresh names makes
`get_user` return exactly the `User` each `create_user` call returned
(the run log records the returned values in order), and grows the users
map by exactly the number of names. -/
theorem creates_distinct (names : List String) (env : TestEnv)
    (hnd : names.Nodup)
    (hfresh : ∀ n ∈ names, lookup n env.users = none) :
    ((runCreates env names).2.map Prod.fst = names) ∧
    (∀ n u, (n, u) ∈ (runCreates env names).2 →
      (runCreates env names).1.get_user n = some u) ∧
    ((runCreates env names).1.users.length =
      env.users.length + names.length) := by
  induction names generalizing env with
  | nil =>
    refine ⟨rfl, ?_, rfl⟩
    intro n u hmem
    exact absurd hmem (by simp [runCreates])
  | cons n rest ih =>
    obtain ⟨hn, hndrest⟩ := List.nodup_cons.mp hnd
    have hfn : lookup n env.users = none := hfresh n (List.mem_cons_self n rest)
    have husers2 : (env.create_user n).2.users =
        (n, (env.create_user n).1) :: env.users := by
      rw [create_user_users, insertMap_of_lookup_none _ _ _ hfn]
    have hfresh2 : ∀ m ∈ rest, lookup m (env.create_user n).2.users = none := by
      intro m hm
      have hmn : n ≠ m := by
        rintro rfl
        exact hn hm
      rw [husers2, lookup, if_neg hmn]
      exact hfresh m (List.mem_cons_of_mem n hm)
    obtain ⟨ih1, ih2, ih3⟩ := ih ((env.create_user n).2) hndrest hfresh2
    refine ⟨?_, ?_, ?_⟩
    · rw [runCreates_cons_snd, List.map_cons, ih1]
    · intro m u hmu
      rw [runCreates_cons_snd, List.mem_cons] at hmu
      rcases hmu with heq | hmem
      · obtain ⟨hm, hu⟩ := Prod.mk.injEq m u n (env.create_user n).1 ▸ heq
        unfold TestEnv.get_user
        rw [runCreates_cons_fst, hm,
          runCreates_lookup_preserved rest ((env.create_user n).2) n hn,
          husers2, lookup, if_pos rfl, hu]
      · rw [runCreates_cons_fst]
        exact ih2 m u hmem
    · rw [runCreates_cons_fst, ih3, husers2]
      simp only [List.length_cons]
      omega

/-- Witness for `creates_distinct`: two distinct names from a fresh
environment. -/
theorem creates_distinct_witness :
    ((runCreates TestEnv.new ["admin", "user"]).2.map Prod.fst =
      ["admin", "user"]) ∧
    (∀ n u, (n, u) ∈ (runCreates TestEnv.new ["admin", "user"]).2 →
      (runCreates TestEnv.new ["admin", "user"]).1.get_user n = some u) ∧
    ((runCreates TestEnv.new ["admin", "user"]).1.users.length =
      TestEnv.new.users.length + (["admin", "user"] : List String).length) :=
  creates_distinct ["admin", "user"] TestEnv.new (by decide) (by decide)

end ScryptoUnit
